import Mathlib

/-!
Verification of the vocabulary builder and the length-bucketed batch
sampler of the Image-Captioning repository.

The notebooks quote the caption pre-processing of
CoCoDataset.getitem and Vocabulary.call verbatim; the word2idx
construction, get_train_indices, and the vocab.pkl persistence are
described in the notebook text and in the specification, and are
modelled here from those descriptions.

Dictionaries are modelled as insertion-ordered association lists
(Python dicts preserve insertion order); lookup returns the first
binding of a key.  Randomness is modelled by explicit seed arguments:
a draw from a list of n elements picks position (seed % n), so that a
uniformly distributed seed yields a uniformly distributed element.
-/

set_option autoImplicit false

namespace ImageCaptioning

/-- A vocabulary: the word-to-id dictionary, the next fresh id, and the
three reserved marker words, mirroring the attributes of the Python
Vocabulary class. -/
structure Vocabulary where
  word2idx : List (String × Nat)
  idx : Nat
  start_word : String
  end_word : String
  unk_word : String

/-- Lookup of a key in an insertion-ordered dictionary: the first
binding wins, absence is none (a KeyError in Python). -/
def vocabLookup : List (String × Nat) → String → Option Nat
  | [], _ => none
  | p :: d, w => if p.fst == w then some p.snd else vocabLookup d w

/-- Vocabulary.call from vocabulary.py, quoted in the notebook: return
word2idx[word] when word is a key, otherwise word2idx[unk_word]. -/
def vocabCall (v : Vocabulary) (w : String) : Option Nat :=
  match vocabLookup v.word2idx w with
  | some i => some i
  | none => vocabLookup v.word2idx v.unk_word

/-- Modelled from the spec: add_word of the missing vocabulary.py.  A
word not yet in the dictionary is bound to the next fresh id; a word
already present is left untouched. -/
def add_word (v : Vocabulary) (w : String) : Vocabulary :=
  if (vocabLookup v.word2idx w).isSome then v
  else { v with word2idx := v.word2idx ++ [(w, v.idx)], idx := v.idx + 1 }

/-- Number of occurrences of a token across all tokenized training
captions (the Counter of the missing vocabulary.py). -/
def countOccs (captions : List (List String)) (w : String) : Nat :=
  captions.flatten.count w

/-- Distinct elements of a list in order of first occurrence, the key
order of a Python Counter built by successive updates. -/
def firstOccList (l : List String) : List String :=
  l.foldl (fun acc w => if w ∈ acc then acc else acc ++ [w]) []

/-- Modelled from the spec: the tokens retained by the threshold rule
of the missing vocabulary.py — tokens whose occurrence count is at
least vocab_threshold, in first-occurrence order. -/
def retainedWords (threshold : Nat) (captions : List (List String)) : List String :=
  (firstOccList captions.flatten).filter (fun w => threshold ≤ countOccs captions w)

/-- Modelled from the spec: build_vocab of the missing vocabulary.py.
Starting from an empty dictionary it adds the start, end and unknown
markers and then every retained corpus token, assigning consecutive
ids. -/
def build_vocab (s e u : String) (threshold : Nat)
    (captions : List (List String)) : Vocabulary :=
  ([s, e, u] ++ retainedWords threshold captions).foldl add_word
    { word2idx := [], idx := 0, start_word := s, end_word := e, unk_word := u }

/-- The persisted form of a vocabulary: the vocab.pkl file holds the
word-to-id mapping. -/
structure SavedVocab where
  word2idx : List (String × Nat)

/-- Modelled from the spec: pickling the vocabulary to vocab.pkl. -/
def saveVocab (v : Vocabulary) : SavedVocab :=
  { word2idx := v.word2idx }

/-- Modelled from the spec: unpickling vocab.pkl into a fresh
Vocabulary whose word2idx is taken from the file. -/
def loadVocab (f : SavedVocab) (s e u : String) : Vocabulary :=
  { word2idx := f.word2idx, idx := f.word2idx.length,
    start_word := s, end_word := e, unk_word := u }

/-- Modelled from the spec: the vocabulary obtained when instantiating
the loader.  With vocab_from_file = true and an existing vocab.pkl the
mapping is read from the file; otherwise it is built from the corpus
with the supplied threshold. -/
def getVocabulary (threshold : Nat) (vocab_from_file : Bool)
    (file : Option SavedVocab) (s e u : String)
    (captions : List (List String)) : Vocabulary :=
  match vocab_from_file, file with
  | true, some f => loadVocab f s e u
  | _, _ => build_vocab s e u threshold captions

/-- The dataset state read by the batch sampler: the vocabulary, the
precomputed token length of every caption, and the batch size. -/
structure CoCoDataset where
  vocab : Vocabulary
  caption_lengths : List Nat
  batch_size : Nat

/-- Modelled from the spec: the draw np.random.choice(caption_lengths),
which picks a uniformly random position of the list, so that a length
is drawn with probability proportional to its number of occurrences. -/
def sel_length (st : CoCoDataset) (r : Nat) : Nat :=
  st.caption_lengths.getD (r % st.caption_lengths.length) 0

/-- The indices whose caption length equals the drawn length (the
np.where filter of get_train_indices). -/
def bucketIndices (st : CoCoDataset) (r : Nat) : List Nat :=
  (List.range st.caption_lengths.length).filter
    (fun i => st.caption_lengths.getD i 0 == sel_length st r)

/-- Modelled from the spec: get_train_indices of the missing
data_loader.py.  It draws one caption length, then draws batch_size
indices uniformly from the bucket of that length
(np.random.choice(all_indices, size=batch_size)), and returns the
indices together with the dataset state, which it leaves unchanged. -/
def get_train_indices (st : CoCoDataset) (r : Nat) (rs : Nat → Nat) :
    List Nat × CoCoDataset :=
  let all := bucketIndices st r
  ((List.range st.batch_size).map (fun k => all.getD (rs k % all.length) 0), st)

/-- Caption pre-processing of CoCoDataset.getitem, quoted in the
notebook: the id of the start word, then the id of every token, then
the id of the end word.  Tokenization is external (nltk), so the token
list is the input.  The Option records the possibility of a KeyError. -/
def getitemCaption (v : Vocabulary) (tokens : List String) : Option (List Nat) := do
  let s0 ← vocabCall v v.start_word
  let mid ← tokens.mapM (vocabCall v)
  let e0 ← vocabCall v v.end_word
  pure (s0 :: (mid ++ [e0]))

/-! Basic lemmas about dictionary lookup. -/

theorem vocabLookup_append {d d2 : List (String × Nat)} {w : String} {i : Nat}
    (h : vocabLookup d w = some i) : vocabLookup (d ++ d2) w = some i := by
  induction d with
  | nil => simp [vocabLookup] at h
  | cons p tl ih =>
    by_cases hp : p.fst = w
    · simpa [vocabLookup, beq_iff_eq, hp] using h
    · rw [List.cons_append]
      simp only [vocabLookup, beq_iff_eq, hp, if_false] at h ⊢
      exact ih h

theorem vocabLookup_isSome_iff {d : List (String × Nat)} {w : String} :
    (vocabLookup d w).isSome = true ↔ w ∈ d.map Prod.fst := by
  induction d with
  | nil => simp [vocabLookup]
  | cons p tl ih =>
    by_cases hp : p.fst = w
    · simp [vocabLookup, beq_iff_eq, hp]
    · have hne : w ≠ p.fst := fun h => hp h.symm
      simp only [vocabLookup, beq_iff_eq, hp, if_false, List.map_cons, List.mem_cons]
      rw [ih]
      constructor
      · exact Or.inr
      · rintro (h | h)
        · exact absurd h hne
        · exact h

theorem mem_of_vocabLookup_eq_some {d : List (String × Nat)} {w : String} {i : Nat}
    (h : vocabLookup d w = some i) : (w, i) ∈ d := by
  induction d with
  | nil => simp [vocabLookup] at h
  | cons p tl ih =>
    by_cases hp : p.fst = w
    · simp only [vocabLookup, beq_iff_eq, hp, if_true, Option.some.injEq] at h
      refine List.mem_cons.mpr (Or.inl ?_)
      cases p
      simp_all
    · simp only [vocabLookup, beq_iff_eq, hp, if_false] at h
      exact List.mem_cons_of_mem _ (ih h)

theorem vocabLookup_eq_some_of_mem {d : List (String × Nat)} {w : String} {i : Nat}
    (hd : (d.map Prod.fst).Nodup) (h : (w, i) ∈ d) : vocabLookup d w = some i := by
  induction d with
  | nil => simp at h
  | cons p tl ih =>
    rw [List.map_cons, List.nodup_cons] at hd
    rcases List.mem_cons.mp h with h1 | h1
    · subst h1
      simp [vocabLookup]
    · have hw : p.fst ≠ w := by
        intro he
        exact hd.1 (by rw [he]; exact List.mem_map.mpr ⟨(w, i), h1, rfl⟩)
      simp only [vocabLookup, beq_iff_eq, hw, if_false]
      exact ih hd.2 h1

/-! Lemmas about add_word and its folds. -/

theorem add_word_start (v : Vocabulary) (w : String) :
    (add_word v w).start_word = v.start_word := by
  unfold add_word; split <;> rfl

theorem add_word_end (v : Vocabulary) (w : String) :
    (add_word v w).end_word = v.end_word := by
  unfold add_word; split <;> rfl

theorem add_word_unk (v : Vocabulary) (w : String) :
    (add_word v w).unk_word = v.unk_word := by
  unfold add_word; split <;> rfl

theorem foldl_add_word_start (ws : List String) (v : Vocabulary) :
    (ws.foldl add_word v).start_word = v.start_word := by
  induction ws generalizing v with
  | nil => rfl
  | cons x tl ih => rw [List.foldl_cons, ih, add_word_start]

theorem foldl_add_word_end (ws : List String) (v : Vocabulary) :
    (ws.foldl add_word v).end_word = v.end_word := by
  induction ws generalizing v with
  | nil => rfl
  | cons x tl ih => rw [List.foldl_cons, ih, add_word_end]

theorem foldl_add_word_unk (ws : List String) (v : Vocabulary) :
    (ws.foldl add_word v).unk_word = v.unk_word := by
  induction ws generalizing v with
  | nil => rfl
  | cons x tl ih => rw [List.foldl_cons, ih, add_word_unk]

theorem add_word_lookup {v : Vocabulary} {w : String} {i : Nat} (x : String)
    (h : vocabLookup v.word2idx w = some i) :
    vocabLookup (add_word v x).word2idx w = some i := by
  unfold add_word
  split
  · exact h
  · exact vocabLookup_append h

theorem foldl_add_word_lookup (ws : List String) {v : Vocabulary} {w : String} {i : Nat}
    (h : vocabLookup v.word2idx w = some i) :
    vocabLookup ((ws.foldl add_word v).word2idx) w = some i := by
  induction ws generalizing v with
  | nil => exact h
  | cons x tl ih => exact ih (add_word_lookup x h)

theorem add_word_snds {v : Vocabulary} (w : String)
    (h : v.word2idx.map Prod.snd = List.range v.idx) :
    (add_word v w).word2idx.map Prod.snd = List.range (add_word v w).idx := by
  unfold add_word
  split
  · exact h
  · simp [List.range_succ, h]

theorem foldl_add_word_snds (ws : List String) {v : Vocabulary}
    (h : v.word2idx.map Prod.snd = List.range v.idx) :
    (ws.foldl add_word v).word2idx.map Prod.snd = List.range (ws.foldl add_word v).idx := by
  induction ws generalizing v with
  | nil => exact h
  | cons x tl ih => exact ih (add_word_snds x h)

theorem add_word_keys_nodup {v : Vocabulary} (w : String)
    (h : (v.word2idx.map Prod.fst).Nodup) :
    ((add_word v w).word2idx.map Prod.fst).Nodup := by
  unfold add_word
  split
  · exact h
  · next hn =>
    have hw : w ∉ v.word2idx.map Prod.fst := by
      rw [← vocabLookup_isSome_iff]
      simpa using hn
    rw [List.map_append]
    exact List.Nodup.append h (List.nodup_singleton w)
      (by simpa [List.disjoint_singleton] using hw)

theorem foldl_add_word_keys_nodup (ws : List String) {v : Vocabulary}
    (h : (v.word2idx.map Prod.fst).Nodup) :
    ((ws.foldl add_word v).word2idx.map Prod.fst).Nodup := by
  induction ws generalizing v with
  | nil => exact h
  | cons x tl ih => exact ih (add_word_keys_nodup x h)

theorem add_word_mem_keys (v : Vocabulary) (x w : String) :
    w ∈ (add_word v x).word2idx.map Prod.fst ↔
      w ∈ v.word2idx.map Prod.fst ∨ w = x := by
  unfold add_word
  split
  · next hs =>
    constructor
    · exact Or.inl
    · rintro (h | rfl)
      · exact h
      · exact vocabLookup_isSome_iff.mp hs
  · simp [List.map_append]

theorem foldl_add_word_mem_keys (ws : List String) (v : Vocabulary) (w : String) :
    w ∈ (ws.foldl add_word v).word2idx.map Prod.fst ↔
      w ∈ v.word2idx.map Prod.fst ∨ w ∈ ws := by
  induction ws generalizing v with
  | nil => simp
  | cons x tl ih =>
    rw [List.foldl_cons, ih, add_word_mem_keys]
    simp [or_assoc]

/-! The shape of the vocabulary after the three reserved markers are
added, and the resulting bindings in the built vocabulary. -/

theorem build_vocab_eq (s e u : String) (t : Nat) (c : List (List String))
    (hse : s ≠ e) (hsu : s ≠ u) (heu : e ≠ u) :
    build_vocab s e u t c = (retainedWords t c).foldl add_word
      { word2idx := [(s, 0), (e, 1), (u, 2)], idx := 3,
        start_word := s, end_word := e, unk_word := u } := by
  unfold build_vocab
  rw [List.foldl_append]
  congr 1
  simp [add_word, vocabLookup, beq_iff_eq, hse, hsu, heu]

theorem build_vocab_lookup_start (s e u : String) (t : Nat) (c : List (List String))
    (hse : s ≠ e) (hsu : s ≠ u) (heu : e ≠ u) :
    vocabLookup (build_vocab s e u t c).word2idx s = some 0 := by
  rw [build_vocab_eq s e u t c hse hsu heu]
  exact foldl_add_word_lookup _ (by simp [vocabLookup])

theorem build_vocab_lookup_end (s e u : String) (t : Nat) (c : List (List String))
    (hse : s ≠ e) (hsu : s ≠ u) (heu : e ≠ u) :
    vocabLookup (build_vocab s e u t c).word2idx e = some 1 := by
  rw [build_vocab_eq s e u t c hse hsu heu]
  exact foldl_add_word_lookup _ (by simp [vocabLookup, beq_iff_eq, hse])

theorem build_vocab_lookup_unk (s e u : String) (t : Nat) (c : List (List String))
    (hse : s ≠ e) (hsu : s ≠ u) (heu : e ≠ u) :
    vocabLookup (build_vocab s e u t c).word2idx u = some 2 := by
  rw [build_vocab_eq s e u t c hse hsu heu]
  exact foldl_add_word_lookup _ (by simp [vocabLookup, beq_iff_eq, hsu, heu])

theorem build_vocab_start_word (s e u : String) (t : Nat) (c : List (List String)) :
    (build_vocab s e u t c).start_word = s := by
  unfold build_vocab
  rw [foldl_add_word_start]

theorem build_vocab_end_word (s e u : String) (t : Nat) (c : List (List String)) :
    (build_vocab s e u t c).end_word = e := by
  unfold build_vocab
  rw [foldl_add_word_end]

theorem build_vocab_unk_word (s e u : String) (t : Nat) (c : List (List String)) :
    (build_vocab s e u t c).unk_word = u := by
  unfold build_vocab
  rw [foldl_add_word_unk]

theorem build_vocab_snds (s e u : String) (t : Nat) (c : List (List String)) :
    (build_vocab s e u t c).word2idx.map Prod.snd =
      List.range (build_vocab s e u t c).idx := by
  unfold build_vocab
  exact foldl_add_word_snds _ (by simp)

theorem build_vocab_keys_nodup (s e u : String) (t : Nat) (c : List (List String)) :
    ((build_vocab s e u t c).word2idx.map Prod.fst).Nodup := by
  unfold build_vocab
  exact foldl_add_word_keys_nodup _ (by simp)

theorem build_vocab_mem_keys (s e u : String) (t : Nat) (c : List (List String)) (w : String) :
    w ∈ (build_vocab s e u t c).word2idx.map Prod.fst ↔
      w = s ∨ w = e ∨ w = u ∨ w ∈ retainedWords t c := by
  unfold build_vocab
  rw [foldl_add_word_mem_keys]
  simp [or_assoc]

/-! Lemmas about the corpus scan. -/

theorem mem_foldl_firstOcc (l : List String) (acc : List String) (w : String) :
    w ∈ l.foldl (fun a x => if x ∈ a then a else a ++ [x]) acc ↔ w ∈ acc ∨ w ∈ l := by
  induction l generalizing acc with
  | nil => simp
  | cons x tl ih =>
    rw [List.foldl_cons]
    by_cases hx : x ∈ acc
    · rw [if_pos hx, ih]
      constructor
      · rintro (h | h)
        · exact Or.inl h
        · exact Or.inr (List.mem_cons_of_mem _ h)
      · rintro (h | h)
        · exact Or.inl h
        · rcases List.mem_cons.mp h with rfl | h2
          · exact Or.inl hx
          · exact Or.inr h2
    · rw [if_neg hx, ih]
      simp [or_assoc]

theorem mem_firstOccList (l : List String) (w : String) :
    w ∈ firstOccList l ↔ w ∈ l := by
  unfold firstOccList
  rw [mem_foldl_firstOcc]
  simp

theorem mem_retainedWords (t : Nat) (c : List (List String)) (w : String) :
    w ∈ retainedWords t c ↔ w ∈ c.flatten ∧ t ≤ countOccs c w := by
  unfold retainedWords
  rw [List.mem_filter, mem_firstOccList]
  simp

theorem countOccs_pos (c : List (List String)) (w : String) :
    1 ≤ countOccs c w ↔ w ∈ c.flatten := by
  unfold countOccs
  exact List.count_pos_iff

/-! Lemmas about the random draws. -/

theorem map_getD_range (l : List Nat) :
    (List.range l.length).map (fun r => l.getD r 0) = l := by
  apply List.ext_getElem
  · simp
  · intro n h1 h2
    simp [List.getD_eq_getElem?_getD, List.getElem?_eq_getElem h2]

theorem count_filter_range (l : List Nat) (L : Nat) :
    ((List.range l.length).filter (fun r => l.getD r 0 == L)).length = l.count L := by
  conv_rhs => rw [← map_getD_range l]
  rw [List.count_eq_countP, List.countP_map, List.countP_eq_length_filter]
  rfl

theorem getD_mod_mem {l : List Nat} (m : Nat) (h : l ≠ []) :
    l.getD (m % l.length) 0 ∈ l := by
  have hlen : 0 < l.length := List.length_pos.mpr h
  have hr : m % l.length < l.length := Nat.mod_lt _ hlen
  rw [List.getD_eq_getElem?_getD, List.getElem?_eq_getElem hr]
  exact List.getElem_mem hr

theorem mem_bucketIndices {st : CoCoDataset} {r i : Nat} (h : i ∈ bucketIndices st r) :
    i < st.caption_lengths.length ∧ st.caption_lengths.getD i 0 = sel_length st r := by
  unfold bucketIndices at h
  rw [List.mem_filter, List.mem_range] at h
  exact ⟨h.1, by simpa using h.2⟩

theorem bucketIndices_ne_nil (st : CoCoDataset) (r : Nat) (h : st.caption_lengths ≠ []) :
    bucketIndices st r ≠ [] := by
  have hlen : 0 < st.caption_lengths.length := List.length_pos.mpr h
  have hr : r % st.caption_lengths.length < st.caption_lengths.length :=
    Nat.mod_lt _ hlen
  have hmem : (r % st.caption_lengths.length) ∈ bucketIndices st r := by
    unfold bucketIndices
    rw [List.mem_filter]
    exact ⟨List.mem_range.mpr hr, by simp [sel_length]⟩
  intro hnil
  rw [hnil] at hmem
  simp at hmem

/-! The claims about the length-bucketed batch sampler. -/

/-- C1: every call of get_train_indices returns exactly batch_size indices;
every returned index is a valid dataset index whose precomputed caption
length equals the single length drawn for that call, so every assembled
batch has uniform caption length; and over one full period of the
in-bucket seed the draw enumerates the drawn length bucket exactly once,
so indices within the bucket are sampled uniformly. -/
theorem c1_get_train_indices_batch (st : CoCoDataset) (r : Nat) (rs : Nat → Nat)
    (h : st.caption_lengths ≠ []) :
    (get_train_indices st r rs).fst.length = st.batch_size ∧
    (∀ i ∈ (get_train_indices st r rs).fst,
      i < st.caption_lengths.length ∧
        st.caption_lengths.getD i 0 = sel_length st r) ∧
    (List.range (bucketIndices st r).length).map
        (fun m => (bucketIndices st r).getD (m % (bucketIndices st r).length) 0)
      = bucketIndices st r := by
  refine ⟨?_, ?_, ?_⟩
  · simp [get_train_indices]
  · intro i hi
    simp only [get_train_indices, List.mem_map] at hi
    obtain ⟨k, hk, hik⟩ := hi
    have hb : bucketIndices st r ≠ [] := bucketIndices_ne_nil st r h
    have hmem : i ∈ bucketIndices st r := hik ▸ getD_mod_mem _ hb
    exact mem_bucketIndices hmem
  · have hcongr : ∀ m ∈ List.range (bucketIndices st r).length,
        (bucketIndices st r).getD (m % (bucketIndices st r).length) 0
          = (bucketIndices st r).getD m 0 := by
      intro m hm
      rw [Nat.mod_eq_of_lt (List.mem_range.mp hm)]
    rw [List.map_congr_left hcongr, map_getD_range]

/-- Witness for C1 at a concrete dataset of three captions and batch size
two. -/
theorem c1_witness :
    (([2, 2, 3] : List Nat) ≠ []) ∧
    (get_train_indices (⟨⟨[], 0, "s", "e", "u"⟩, [2, 2, 3], 2⟩ : CoCoDataset)
        5 (fun k => k)).fst.length = 2 :=
  ⟨by decide,
    (c1_get_train_indices_batch (⟨⟨[], 0, "s", "e", "u"⟩, [2, 2, 3], 2⟩ : CoCoDataset)
      5 (fun k => k) (by decide)).1⟩

/-- C2: the caption length is drawn with probability proportional to its
frequency in the corpus: among the caption_lengths.length equiprobable
seed values of one draw, the number of seeds for which sel_length
returns L equals the number of captions whose length is L. -/
theorem c2_sel_length_frequency (st : CoCoDataset) (L : Nat) :
    ((List.range st.caption_lengths.length).filter
        (fun r => sel_length st r == L)).length
      = st.caption_lengths.count L := by
  have hcongr : ∀ r ∈ List.range st.caption_lengths.length,
      (sel_length st r == L) = (st.caption_lengths.getD r 0 == L) := by
    intro r hr
    rw [List.mem_range] at hr
    simp [sel_length, Nat.mod_eq_of_lt hr]
  rw [List.filter_congr hcongr]
  exact count_filter_range _ _

/-- C8: get_train_indices mutates nothing: the dataset state it returns
is the very state it was given, caption lengths and vocabulary included,
and the bucket of eligible indices of any later draw over the returned
state is unchanged, so sampling is with replacement across calls and the
same index can reappear in later batches. -/
theorem c8_get_train_indices_frame (st : CoCoDataset) (r : Nat) (rs : Nat → Nat) :
    (get_train_indices st r rs).snd = st ∧
    (get_train_indices st r rs).snd.caption_lengths = st.caption_lengths ∧
    (get_train_indices st r rs).snd.vocab = st.vocab ∧
    ∀ r2, bucketIndices (get_train_indices st r rs).snd r2 = bucketIndices st r2 :=
  ⟨rfl, rfl, rfl, fun _ => rfl⟩

/-! The claims about vocabulary persistence and determinism. -/

/-- C6: vocabulary construction is deterministic and idempotent: two
builds over the identical captions corpus with the identical threshold
produce the identical word-to-id mapping: same association list, hence
same key set and same id for every key. -/
theorem c6_build_vocab_deterministic (s e u : String) (t : Nat)
    (c : List (List String)) (v1 v2 : Vocabulary)
    (h1 : v1 = build_vocab s e u t c) (h2 : v2 = build_vocab s e u t c) :
    v1.word2idx = v2.word2idx ∧
    ∀ w, vocabLookup v1.word2idx w = vocabLookup v2.word2idx w := by
  subst h1
  subst h2
  exact ⟨rfl, fun _ => rfl⟩

/-- Witness for C6 on a concrete two-word corpus. -/
theorem c6_witness :
    (build_vocab "<start>" "<end>" "<unk>" 1 [["a", "b"]]).word2idx
      = (build_vocab "<start>" "<end>" "<unk>" 1 [["a", "b"]]).word2idx ∧
    ∀ w, vocabLookup (build_vocab "<start>" "<end>" "<unk>" 1 [["a", "b"]]).word2idx w
      = vocabLookup (build_vocab "<start>" "<end>" "<unk>" 1 [["a", "b"]]).word2idx w :=
  c6_build_vocab_deterministic "<start>" "<end>" "<unk>" 1 [["a", "b"]] _ _ rfl rfl

/-- C7: persisting then reloading the vocabulary is a round trip: after a
vocabulary is built and saved to the vocab.pkl file, instantiating the
loader with vocab_from_file = true yields a vocabulary whose word-to-id
mapping equals the saved one, whatever threshold and corpus the second
instantiation is given. -/
theorem c7_save_load_roundtrip (s e u : String) (t t2 : Nat)
    (c c2 : List (List String)) (v : Vocabulary)
    (hv : v = build_vocab s e u t c) :
    (getVocabulary t2 true (some (saveVocab v)) s e u c2).word2idx = v.word2idx := by
  subst hv
  rfl

/-- Witness for C7 on a concrete one-caption corpus. -/
theorem c7_witness :
    (getVocabulary 9 true
        (some (saveVocab (build_vocab "<start>" "<end>" "<unk>" 1 [["a"]])))
        "<start>" "<end>" "<unk>" []).word2idx
      = (build_vocab "<start>" "<end>" "<unk>" 1 [["a"]]).word2idx :=
  c7_save_load_roundtrip "<start>" "<end>" "<unk>" 1 9 [["a"]] [] _ rfl

/-- C10: with vocab_from_file = true and an existing vocab.pkl file, the
resulting vocabulary is independent of the supplied vocab_threshold:
instantiations with any two thresholds over the same saved file, and
even over different corpora, yield identical word-to-id mappings. -/
theorem c10_threshold_ignored (t1 t2 : Nat) (f : SavedVocab) (s e u : String)
    (c1 c2 : List (List String)) :
    (getVocabulary t1 true (some f) s e u c1).word2idx
      = (getVocabulary t2 true (some f) s e u c2).word2idx := rfl

/-! The claims about the vocabulary builder. -/

theorem build_vocab_lookup_unk_word (s e u : String) (t : Nat) (c : List (List String))
    (hse : s ≠ e) (hsu : s ≠ u) (heu : e ≠ u) :
    vocabLookup (build_vocab s e u t c).word2idx (build_vocab s e u t c).unk_word
      = some 2 := by
  rw [build_vocab_unk_word]
  exact build_vocab_lookup_unk s e u t c hse hsu heu

theorem build_vocab_call_isSome (s e u : String) (t : Nat) (c : List (List String))
    (hse : s ≠ e) (hsu : s ≠ u) (heu : e ≠ u) (w : String) :
    (vocabCall (build_vocab s e u t c) w).isSome := by
  cases hl : vocabLookup (build_vocab s e u t c).word2idx w with
  | some i => simp [vocabCall, hl]
  | none => simp [vocabCall, hl, build_vocab_lookup_unk_word s e u t c hse hsu heu]

/-- C3: for every corpus and threshold, vocabulary construction gives a
word its own id exactly when its occurrence count in the training
captions is at least vocab_threshold, and a word occurring fewer than
vocab_threshold times receives no id of its own and resolves to the
reserved unknown id 2.  The word is a corpus word, that is, distinct
from the three reserved markers, which the nltk tokenizer can never
emit, and the threshold is at least one. -/
theorem c3_threshold_rule (s e u : String) (t : Nat) (c : List (List String))
    (w : String) (v : Vocabulary) (hv : v = build_vocab s e u t c)
    (hse : s ≠ e) (hsu : s ≠ u) (heu : e ≠ u)
    (hws : w ≠ s) (hwe : w ≠ e) (hwu : w ≠ u) (ht : 1 ≤ t) :
    ((vocabLookup v.word2idx w).isSome ↔ t ≤ countOccs c w) ∧
    (countOccs c w < t → vocabCall v w = some 2) := by
  subst hv
  have hiff : (vocabLookup (build_vocab s e u t c).word2idx w).isSome
      ↔ t ≤ countOccs c w := by
    rw [vocabLookup_isSome_iff, build_vocab_mem_keys]
    constructor
    · rintro (rfl | rfl | rfl | hm)
      · exact absurd rfl hws
      · exact absurd rfl hwe
      · exact absurd rfl hwu
      · exact ((mem_retainedWords t c w).mp hm).2
    · intro hcnt
      refine Or.inr (Or.inr (Or.inr ?_))
      rw [mem_retainedWords]
      exact ⟨(countOccs_pos c w).mp (le_trans ht hcnt), hcnt⟩
  refine ⟨hiff, ?_⟩
  intro hcnt
  have hnone : vocabLookup (build_vocab s e u t c).word2idx w = none := by
    rw [← Option.not_isSome_iff_eq_none]
    rw [hiff]
    omega
  simp [vocabCall, hnone, build_vocab_lookup_unk_word s e u t c hse hsu heu]

/-- Witness for C3 on a one-caption corpus with threshold one. -/
theorem c3_witness :
    ((vocabLookup (build_vocab "<start>" "<end>" "<unk>" 1 [["hello"]]).word2idx
        "hello").isSome ↔ 1 ≤ countOccs [["hello"]] "hello") ∧
    (countOccs [["hello"]] "hello" < 1 →
      vocabCall (build_vocab "<start>" "<end>" "<unk>" 1 [["hello"]]) "hello"
        = some 2) :=
  c3_threshold_rule "<start>" "<end>" "<unk>" 1 [["hello"]] "hello" _ rfl
    (by decide) (by decide) (by decide) (by decide) (by decide) (by decide)
    (by decide)

/-- C4: after construction, word2idx is injective (no two words share an
id), the reserved markers hold ids 0, 1 and 2, the ids of the dictionary
are exactly the dense range 0 .. len - 1, at least the three reserved
ids exist, and every id from 3 up to len - 1 is held by some retained
corpus word distinct from the markers. -/
theorem c4_word2idx_dense (s e u : String) (t : Nat) (c : List (List String))
    (v : Vocabulary) (hv : v = build_vocab s e u t c)
    (hse : s ≠ e) (hsu : s ≠ u) (heu : e ≠ u) :
    (∀ p ∈ v.word2idx, ∀ q ∈ v.word2idx, p.snd = q.snd → p.fst = q.fst) ∧
    vocabLookup v.word2idx s = some 0 ∧
    vocabLookup v.word2idx e = some 1 ∧
    vocabLookup v.word2idx u = some 2 ∧
    v.word2idx.map Prod.snd = List.range v.word2idx.length ∧
    3 ≤ v.word2idx.length ∧
    (∀ k, 3 ≤ k → k < v.word2idx.length →
      ∃ w, w ≠ s ∧ w ≠ e ∧ w ≠ u ∧ vocabLookup v.word2idx w = some k) := by
  subst hv
  have hsnd : (build_vocab s e u t c).word2idx.map Prod.snd
      = List.range (build_vocab s e u t c).word2idx.length := by
    have h0 := build_vocab_snds s e u t c
    have hlen : (build_vocab s e u t c).word2idx.length
        = (build_vocab s e u t c).idx := by
      have h1 := congrArg List.length h0
      simpa using h1
    rw [h0, hlen]
  have hs0 := build_vocab_lookup_start s e u t c hse hsu heu
  have he1 := build_vocab_lookup_end s e u t c hse hsu heu
  have hu2 := build_vocab_lookup_unk s e u t c hse hsu heu
  have hlen3 : 3 ≤ (build_vocab s e u t c).word2idx.length := by
    have hm : ((u, 2) : String × Nat) ∈ (build_vocab s e u t c).word2idx :=
      mem_of_vocabLookup_eq_some hu2
    have h2 : 2 ∈ (build_vocab s e u t c).word2idx.map Prod.snd :=
      List.mem_map.mpr ⟨(u, 2), hm, rfl⟩
    rw [hsnd, List.mem_range] at h2
    omega
  refine ⟨?_, hs0, he1, hu2, hsnd, hlen3, ?_⟩
  · have hnodup : ((build_vocab s e u t c).word2idx.map Prod.snd).Nodup := by
      rw [hsnd]
      exact List.nodup_range _
    intro p hp q hq hpq
    exact congrArg Prod.fst (List.inj_on_of_nodup_map hnodup hp hq hpq)
  · intro k h3 hk
    have hmem : k ∈ (build_vocab s e u t c).word2idx.map Prod.snd := by
      rw [hsnd]
      exact List.mem_range.mpr hk
    obtain ⟨p, hp, hpk⟩ := List.mem_map.mp hmem
    have hpair : (p.fst, k) ∈ (build_vocab s e u t c).word2idx := by
      have hup : p = (p.fst, k) := by
        cases p
        simp_all
      exact hup ▸ hp
    have hlk : vocabLookup (build_vocab s e u t c).word2idx p.fst = some k :=
      vocabLookup_eq_some_of_mem (build_vocab_keys_nodup s e u t c) hpair
    refine ⟨p.fst, ?_, ?_, ?_, hlk⟩
    · intro hws
      rw [hws, hs0] at hlk
      simp only [Option.some.injEq] at hlk
      omega
    · intro hwe
      rw [hwe, he1] at hlk
      simp only [Option.some.injEq] at hlk
      omega
    · intro hwu
      rw [hwu, hu2] at hlk
      simp only [Option.some.injEq] at hlk
      omega

/-- Witness for C4 on a one-caption corpus with threshold one. -/
theorem c4_witness :
    (∀ p ∈ (build_vocab "<start>" "<end>" "<unk>" 1 [["hello"]]).word2idx,
      ∀ q ∈ (build_vocab "<start>" "<end>" "<unk>" 1 [["hello"]]).word2idx,
        p.snd = q.snd → p.fst = q.fst) ∧
    vocabLookup (build_vocab "<start>" "<end>" "<unk>" 1 [["hello"]]).word2idx
      "<start>" = some 0 ∧
    vocabLookup (build_vocab "<start>" "<end>" "<unk>" 1 [["hello"]]).word2idx
      "<end>" = some 1 ∧
    vocabLookup (build_vocab "<start>" "<end>" "<unk>" 1 [["hello"]]).word2idx
      "<unk>" = some 2 ∧
    (build_vocab "<start>" "<end>" "<unk>" 1 [["hello"]]).word2idx.map Prod.snd
      = List.range (build_vocab "<start>" "<end>" "<unk>" 1 [["hello"]]).word2idx.length ∧
    3 ≤ (build_vocab "<start>" "<end>" "<unk>" 1 [["hello"]]).word2idx.length ∧
    (∀ k, 3 ≤ k →
      k < (build_vocab "<start>" "<end>" "<unk>" 1 [["hello"]]).word2idx.length →
      ∃ w, w ≠ "<start>" ∧ w ≠ "<end>" ∧ w ≠ "<unk>" ∧
        vocabLookup (build_vocab "<start>" "<end>" "<unk>" 1 [["hello"]]).word2idx w
          = some k) :=
  c4_word2idx_dense "<start>" "<end>" "<unk>" 1 [["hello"]] _ rfl
    (by decide) (by decide) (by decide)

/-- C5: for every string, Vocabulary.call returns word2idx[word] when the
word is a key, otherwise returns the reserved unknown id 2, and always
succeeds on the built vocabulary. -/
theorem c5_vocabCall_total (s e u : String) (t : Nat) (c : List (List String))
    (v : Vocabulary) (hv : v = build_vocab s e u t c)
    (hse : s ≠ e) (hsu : s ≠ u) (heu : e ≠ u) :
    (∀ w i, vocabLookup v.word2idx w = some i → vocabCall v w = some i) ∧
    (∀ w, vocabLookup v.word2idx w = none → vocabCall v w = some 2) ∧
    (∀ w, (vocabCall v w).isSome) := by
  subst hv
  refine ⟨?_, ?_, build_vocab_call_isSome s e u t c hse hsu heu⟩
  · intro w i h
    simp [vocabCall, h]
  · intro w h
    simp [vocabCall, h, build_vocab_lookup_unk_word s e u t c hse hsu heu]

/-- Witness for C5 on a one-caption corpus with threshold one. -/
theorem c5_witness :
    (∀ w i, vocabLookup (build_vocab "<start>" "<end>" "<unk>" 1 [["a"]]).word2idx w
        = some i → vocabCall (build_vocab "<start>" "<end>" "<unk>" 1 [["a"]]) w
          = some i) ∧
    (∀ w, vocabLookup (build_vocab "<start>" "<end>" "<unk>" 1 [["a"]]).word2idx w
        = none → vocabCall (build_vocab "<start>" "<end>" "<unk>" 1 [["a"]]) w
          = some 2) ∧
    (∀ w, (vocabCall (build_vocab "<start>" "<end>" "<unk>" 1 [["a"]]) w).isSome) :=
  c5_vocabCall_total "<start>" "<end>" "<unk>" 1 [["a"]] _ rfl
    (by decide) (by decide) (by decide)

theorem mapM_vocabCall (v : Vocabulary) (hT : ∀ w, (vocabCall v w).isSome)
    (tokens : List String) :
    tokens.mapM (vocabCall v)
      = some (tokens.map (fun w => (vocabCall v w).getD 0)) := by
  induction tokens with
  | nil => rfl
  | cons a tl ih =>
    obtain ⟨i, hi⟩ := Option.isSome_iff_exists.mp (hT a)
    rw [List.mapM_cons, hi, ih]
    simp [hi]

/-- C9: for every tokenized caption, the pre-processed id sequence of
CoCoDataset.getitem is the id of the start word, then the id of every
token in order, then the id of the end word; on a built vocabulary it
therefore begins with 0, ends with 1, and has length the token count
plus two. -/
theorem c9_getitem_caption (s e u : String) (t : Nat) (c : List (List String))
    (v : Vocabulary) (tokens : List String)
    (hv : v = build_vocab s e u t c) (hse : s ≠ e) (hsu : s ≠ u) (heu : e ≠ u) :
    getitemCaption v tokens
      = some (0 :: (tokens.map (fun w => (vocabCall v w).getD 0) ++ [1])) ∧
    (∀ w, vocabCall v w = some ((vocabCall v w).getD 0)) ∧
    (0 :: (tokens.map (fun w => (vocabCall v w).getD 0) ++ [1])).length
      = tokens.length + 2 ∧
    (0 :: (tokens.map (fun w => (vocabCall v w).getD 0) ++ [1])).head? = some 0 ∧
    (0 :: (tokens.map (fun w => (vocabCall v w).getD 0) ++ [1])).getLast? = some 1 := by
  subst hv
  have hT := build_vocab_call_isSome s e u t c hse hsu heu
  have hstart : vocabCall (build_vocab s e u t c)
      (build_vocab s e u t c).start_word = some 0 := by
    have hl : vocabLookup (build_vocab s e u t c).word2idx
        (build_vocab s e u t c).start_word = some 0 := by
      rw [build_vocab_start_word]
      exact build_vocab_lookup_start s e u t c hse hsu heu
    simp [vocabCall, hl]
  have hend : vocabCall (build_vocab s e u t c)
      (build_vocab s e u t c).end_word = some 1 := by
    have hl : vocabLookup (build_vocab s e u t c).word2idx
        (build_vocab s e u t c).end_word = some 1 := by
      rw [build_vocab_end_word]
      exact build_vocab_lookup_end s e u t c hse hsu heu
    simp [vocabCall, hl]
  refine ⟨?_, ?_, ?_, rfl, ?_⟩
  · rw [getitemCaption, hstart, mapM_vocabCall _ hT, hend]
    rfl
  · intro w
    obtain ⟨i, hi⟩ := Option.isSome_iff_exists.mp (hT w)
    rw [hi]
    rfl
  · simp
  · rw [← List.cons_append, List.getLast?_concat]

/-- Witness for C9 on a one-token caption over a one-caption corpus. -/
theorem c9_witness :
    getitemCaption (build_vocab "<start>" "<end>" "<unk>" 1 [["a"]]) ["a"]
      = some (0 :: (List.map
          (fun w => (vocabCall (build_vocab "<start>" "<end>" "<unk>" 1 [["a"]]) w).getD 0)
          ["a"] ++ [1])) ∧
    (∀ w, vocabCall (build_vocab "<start>" "<end>" "<unk>" 1 [["a"]]) w
        = some ((vocabCall (build_vocab "<start>" "<end>" "<unk>" 1 [["a"]]) w).getD 0)) ∧
    (0 :: (List.map
        (fun w => (vocabCall (build_vocab "<start>" "<end>" "<unk>" 1 [["a"]]) w).getD 0)
        ["a"] ++ [1])).length = (["a"] : List String).length + 2 ∧
    (0 :: (List.map
        (fun w => (vocabCall (build_vocab "<start>" "<end>" "<unk>" 1 [["a"]]) w).getD 0)
        ["a"] ++ [1])).head? = some 0 ∧
    (0 :: (List.map
        (fun w => (vocabCall (build_vocab "<start>" "<end>" "<unk>" 1 [["a"]]) w).getD 0)
        ["a"] ++ [1])).getLast? = some 1 :=
  c9_getitem_caption "<start>" "<end>" "<unk>" 1 [["a"]] _ ["a"] rfl
    (by decide) (by decide) (by decide)

end ImageCaptioning
